import Mathlib

/-!
Shallow embedding of the hr-analytics statistics engine.

Sources embedded here:
* `processCSVToRawData.ts` (src/unnamed/part_004): percentile, seniority
  extraction, interaction-pair aggregation.
* `estimatePopulation.ts` (src/unnamed/part_005, first file): title-count
  overlap and the Chapman capture-recapture estimator.
* `processComparison.ts` (src/unnamed/part_005, second file): category
  overlap table and taxonomy diff across pipeline runs.
* `processPhase2.ts` (concatenated into
  src/employee-dashboard/src/app/api/data/route.ts): subcategory format
  detection and the bias score.

Conventions: JavaScript numbers are modelled as ℚ (the relevant code paths
are exact decimal/integer arithmetic); `Math.round x` is `⌊x + 1/2⌋`, which
is JS semantics (round half toward +∞); `(+x.toFixed(1))` is rounding to one
decimal; JS `Record` objects are insertion-ordered association lists and JS
`Set`s are insertion-ordered duplicate-free lists.  `Math.sqrt` is irrational
in general, so the standard error is a parameter of the embedding of
`computeCaptureRecapture`; theorems quantify over it.
-/

namespace HrAnalytics

/-- JS `Math.round`: round half toward positive infinity. -/
def jsRound (q : ℚ) : ℤ := ⌊q + 1/2⌋

/-- JS `+x.toFixed(1)`: round to one decimal place. -/
def toFixed1 (q : ℚ) : ℚ := (jsRound (10 * q) : ℚ) / 10

/-- JS `String.prototype.trim` (structural model over the character list;
the relevant inputs are ASCII, where the whitespace sets agree). -/
def strTrim (s : String) : String :=
  String.mk (((s.data.dropWhile Char.isWhitespace).reverse.dropWhile Char.isWhitespace).reverse)

/-- JS `String.prototype.toLowerCase` (ASCII, structural model). -/
def strToLower (s : String) : String :=
  String.mk (s.data.map Char.toLower)

/-- JS `String.prototype.startsWith` (structural model). -/
def strStartsWith (s pre : String) : Bool :=
  pre.data.isPrefixOf s.data

/-- JS `record[k] = (record[k] || 0) + 1` on an insertion-ordered object. -/
def bumpCount (m : List (String × Nat)) (k : String) : List (String × Nat) :=
  match m with
  | [] => [(k, 1)]
  | (k0, v) :: rest => if k0 = k then (k0, v + 1) :: rest else (k0, v) :: bumpCount rest k

/-- JS `record[k] || 0`. -/
def lookupCount (m : List (String × Nat)) (k : String) : Nat :=
  (m.lookup k).getD 0

/-- JS `Set.add` on an insertion-ordered duplicate-free list. -/
def setInsert (s : List String) (k : String) : List String :=
  if k ∈ s then s else s ++ [k]

/-- JS `[...iterable]` fed through `new Set(...)`: dedup keeping first
occurrences. -/
def setOfList (l : List String) : List String :=
  l.foldl setInsert []

-- ── Seniority extraction (part_004 lines 37-64) ──

/-- JS regex `\w` (ASCII word character). -/
def isWordChar (c : Char) : Bool := c.isAlpha || c.isDigit || c == '_'

/-- Character comparison, case-insensitive when `ci` (regex `i` flag). -/
def charMatches (ci : Bool) (a b : Char) : Bool :=
  if ci then a.toLower == b.toLower else a == b

/-- `pat` matches at the start of `s` (up to the `ci` flag). -/
def prefixMatches (ci : Bool) : List Char → List Char → Bool
  | [], _ => true
  | _ :: _, [] => false
  | p :: ps, c :: cs => charMatches ci p c && prefixMatches ci ps cs

/-- After consuming `n` characters of `s`, the next character (if any) is a
non-word character: the trailing `\b` of the pattern. -/
def boundaryAfter (n : Nat) (s : List Char) : Bool :=
  match s.drop n with
  | [] => true
  | c :: _ => !isWordChar c

/-- Search for a `\b pat \b` occurrence. `prevW` records whether the
character before the current position is a word character (the leading `\b`);
all patterns used begin and end with word characters. -/
def findWord (ci : Bool) (pat : List Char) : Bool → List Char → Bool
  | _, [] => false
  | prevW, c :: rest =>
    (!prevW && prefixMatches ci pat (c :: rest) && boundaryAfter pat.length (c :: rest))
      || findWord ci pat (isWordChar c) rest

/-- JS `/\b pat \b/ (i?) .test(title)`. -/
def testPattern (ci : Bool) (pat title : String) : Bool :=
  findWord ci pat.data false title.data

/-- `SENIORITY_PATTERNS`: (keyword, case-insensitive flag, label).  Only the
`VP` rule lacks the `i` flag in the source. -/
def SENIORITY_PATTERNS : List (String × Bool × String) :=
  [("Vice President", true, "Vice President"),
   ("VP", false, "VP"),
   ("Director", true, "Director"),
   ("Principal", true, "Principal"),
   ("Senior Manager", true, "Manager"),
   ("Senior", true, "Senior"),
   ("Lead", true, "Lead"),
   ("Manager", true, "Manager"),
   ("Associate", true, "Associate"),
   ("Junior", true, "Junior")]

/-- `extractSeniority`: first matching rule wins, no match gives `null`. -/
def extractSeniority (title : String) : Option String :=
  (SENIORITY_PATTERNS.find? (fun pr => testPattern pr.2.1 pr.1 title)).map (fun pr => pr.2.2)

/-- `buildSeniorityDist`: titles with no seniority signal are skipped. -/
def buildSeniorityDist (titles : List String) : List (String × Nat) :=
  titles.foldl (fun dist t =>
    match extractSeniority t with
    | some level => bumpCount dist level
    | none => dist) []

-- ── percentile (part_004 lines 12-18) ──

/-- `percentile(sorted, p)`: linear interpolation between order statistics at
`rank = p/100 * (n − 1)`.  Out-of-range indexing (impossible for the inputs
considered) defaults to 0. -/
def percentile (sorted : List ℚ) (p : ℚ) : ℚ :=
  let idx : ℚ := (p / 100) * ((sorted.length : ℚ) - 1)
  let lo : ℤ := ⌊idx⌋
  let hi : ℤ := ⌈idx⌉
  if lo = hi then sorted.getD lo.toNat 0
  else sorted.getD lo.toNat 0 + (sorted.getD hi.toNat 0 - sorted.getD lo.toNat 0) * (idx - (lo : ℚ))

/-- The true median of a sorted list, stated from the spec's words (middle
element for odd length, mean of the two middle elements for even length);
compared against `percentile _ 50`. -/
def trueMedian (l : List ℚ) : ℚ :=
  if l.length % 2 = 1 then l.getD ((l.length - 1) / 2) 0
  else (l.getD (l.length / 2 - 1) 0 + l.getD (l.length / 2) 0) / 2

/-- Minimum of a list (0 for an empty list); spec-side notion for C3. -/
def listMin : List ℚ → ℚ
  | [] => 0
  | x :: xs => xs.foldl min x

/-- Maximum of a list (0 for an empty list); spec-side notion for C3. -/
def listMax : List ℚ → ℚ
  | [] => 0
  | x :: xs => xs.foldl max x

-- ── Interaction aggregation (part_004 lines 68-224, interactions section) ──

/-- One parsed CSV row (fields already defaulted to `""` as by `row.x || ""`). -/
structure CsvRow where
  message : String
  award_title : String
  recipient_title : String
  nominator_title : String

/-- One entry of the JS `pairCounts` record. -/
structure PairCount where
  nominator : String
  recipient : String
  count : Nat
deriving DecidableEq

/-- Insert one (already trimmed, non-empty) interaction into `pairCounts`.
The JS key is `` `${nom}|||${recip}` ``; we key on the pair itself, which
coincides unless a title itself contains `"|||"`. -/
def addPair (acc : List PairCount) (nom recip : String) : List PairCount :=
  match acc with
  | [] => [⟨nom, recip, 1⟩]
  | p :: rest =>
    if p.nominator = nom ∧ p.recipient = recip
    then ⟨p.nominator, p.recipient, p.count + 1⟩ :: rest
    else p :: addPair rest nom recip

/-- The `pairCounts` accumulation loop of `processCSVToRawData`. -/
def buildPairCounts (rows : List CsvRow) : List PairCount :=
  rows.foldl (fun acc row =>
    let nom := strTrim row.nominator_title
    let recip := strTrim row.recipient_title
    if nom = "" ∨ recip = "" then acc else addPair acc nom recip) []

/-- `countValues`: frequency table of trimmed non-empty values. -/
def countValues (values : List String) : List (String × Nat) :=
  values.foldl (fun counts v =>
    let t := strTrim v
    if t = "" then counts else bumpCount counts t) []

/-- The `interactions` object assembled by `processCSVToRawData`. -/
structure InteractionStats where
  total_interactions : Nat
  unique_pairs : Nat
  unique_recipients : Nat
  unique_nominators : Nat
  self_recognition_count : Nat
  bidirectional_pairs : Nat
  top_10_pairs : List PairCount
deriving DecidableEq

/-- The interactions section of `processCSVToRawData` (part_004 lines
110-148 and 213-223). -/
def processInteractions (rows : List CsvRow) : InteractionStats :=
  let allPairs := buildPairCounts rows
  let selfCount := (allPairs.filter (fun p => p.nominator == p.recipient)).foldl
    (fun s p => s + p.count) 0
  let biRaw := (allPairs.filter (fun p =>
    (allPairs.any (fun q => q.nominator == p.recipient && q.recipient == p.nominator))
      && p.nominator != p.recipient)).length
  { total_interactions := (rows.filter (fun r =>
      strTrim r.nominator_title != "" && strTrim r.recipient_title != "")).length,
    unique_pairs := allPairs.length,
    unique_recipients :=
      (countValues ((rows.map (·.recipient_title)).filter (fun t => strTrim t != ""))).length,
    unique_nominators :=
      (countValues ((rows.map (·.nominator_title)).filter (fun t => strTrim t != ""))).length,
    self_recognition_count := selfCount,
    bidirectional_pairs := biRaw / 2,
    top_10_pairs := (List.insertionSort (fun a b => b.count ≤ a.count) allPairs).take 10 }

-- ── Population estimator (part_005 first file, lines 55-133) ──

/-- The fields of a `RawData` title section read by the estimator. -/
structure RawTitleField where
  unique_count : Nat
  top_15_titles : List (String × Nat)
deriving DecidableEq

/-- The fields of `RawData` read by `computeTitleCount`. -/
structure RawData where
  recipient_title : RawTitleField
  nominator_title : RawTitleField
  interactions : InteractionStats

/-- `TitleCountEstimate` result record. -/
structure TitleCountEstimate where
  uniqueRecipients : Nat
  uniqueNominators : Nat
  totalUnique : ℤ
  overlap : ℤ
  overlapPct : ℚ

/-- `computeTitleCount` (part_005 lines 55-89).  In Lean `q / 0 = 0` where JS
would produce `NaN` (possible only when a top-15 list is empty); theorems
about this definition assume both top-15 lists are non-empty. -/
def computeTitleCount (raw : RawData) : TitleCountEstimate :=
  let n1 := raw.recipient_title.unique_count
  let n2 := raw.nominator_title.unique_count
  let recipSet := setOfList (raw.recipient_title.top_15_titles.map (·.1))
  let nomSet := setOfList (raw.nominator_title.top_15_titles.map (·.1))
  let topOverlap := (recipSet.filter (fun t => nomSet.contains t)).length
  let topOverlapRate : ℚ := (topOverlap : ℚ) / ((min recipSet.length nomSet.length : ℕ) : ℚ)
  let estimatedOverlap : ℤ := jsRound (topOverlapRate * ((min n1 n2 : ℕ) : ℚ))
  let overlapFromSelf : ℤ :=
    if raw.interactions.self_recognition_count > 0
    then jsRound (((min n1 n2 : ℕ) : ℚ) * (3 / 10))
    else estimatedOverlap
  let overlap : ℤ := max (max estimatedOverlap overlapFromSelf) 1
  { uniqueRecipients := n1,
    uniqueNominators := n2,
    totalUnique := (n1 : ℤ) + n2 - overlap,
    overlap := overlap,
    overlapPct := toFixed1 ((overlap : ℚ) / ((min n1 n2 : ℕ) : ℚ) * 100) }

/-- `CaptureRecaptureEstimate` result record (assumption strings omitted). -/
structure CaptureRecaptureEstimate where
  n1 : Nat
  n2 : Nat
  m : ℤ
  chapmanEstimate : ℤ
  standardError : ℤ
  ci95 : ℤ × ℤ
  sensitivity : List (ℚ × ℤ)

/-- The Chapman point-estimate formula exactly as the spec states it:
`N̂ = ((n1+1)(n2+1)/(m+1)) − 1`. -/
def specChapmanFormula (n1 n2 : ℕ) (m : ℤ) : ℚ :=
  ((n1 + 1 : ℚ) * (n2 + 1)) / ((m : ℚ) + 1) - 1

/-- Chapman variance, as computed by the source (for reference; its square
root is irrational which is why `se` is a parameter below). -/
def chapmanVariance (n1 n2 : ℕ) (m : ℤ) : ℚ :=
  ((n1 + 1 : ℚ) * (n2 + 1) * ((n1 : ℚ) - m) * ((n2 : ℚ) - m)) /
    (((m : ℚ) + 1) ^ 2 * ((m : ℚ) + 2))

/-- `computeCaptureRecapture` (part_005 lines 91-133).  The source sets
`se = Math.sqrt(variance)`; since that square root is irrational, `se` is a
parameter here and theorems quantify over it. -/
def computeCaptureRecapture (tc : TitleCountEstimate) (se : ℚ) : CaptureRecaptureEstimate :=
  let n1 := tc.uniqueRecipients
  let n2 := tc.uniqueNominators
  let m := tc.overlap
  let chapman : ℚ := ((n1 + 1 : ℚ) * (n2 + 1)) / ((m : ℚ) + 1) - 1
  let ciLow : ℚ := max (chapman - 1.96 * se) (((max n1 n2 : ℕ) : ℚ))
  let ciHigh : ℚ := chapman + 1.96 * se
  { n1 := n1, n2 := n2, m := m,
    chapmanEstimate := jsRound chapman,
    standardError := jsRound se,
    ci95 := (jsRound ciLow, jsRound ciHigh),
    sensitivity := [1, 5/4, 3/2, 2, 5/2].map (fun k => (k, jsRound (chapman * k))) }

-- ── Phase 2 classification analyzer (processPhase2.ts, concatenated into
-- src/employee-dashboard/src/app/api/data/route.ts) ──

/-- Taxonomy subcategory: only the identifier is consulted by the code. -/
structure Subcategory where
  id : String
deriving DecidableEq

/-- Taxonomy category. -/
structure TaxCategory where
  id : String
  name : String
  subcategories : List Subcategory
deriving DecidableEq

/-- Taxonomy: a list of categories. -/
structure Taxonomy where
  categories : List TaxCategory
deriving DecidableEq

/-- One per-message classification. -/
structure Classification where
  batch : Nat
  category : Option String
  subcategory : Option String
  themes : List String
  new_category : Option String
deriving DecidableEq

/-- `phase_2_results.json` metadata. -/
structure Phase2Metadata where
  total_messages : Nat
  total_classified : Nat
  batch_size : Nat
deriving DecidableEq

/-- `phase_2_results.json` payload. -/
structure Phase2Data where
  metadata : Phase2Metadata
  classifications : List Classification
  candidate_categories : List (String × Nat)
deriving DecidableEq

/-- Fallback category-id set used when no taxonomy is supplied. -/
def defaultCategoryIds : List String := ["C1", "C2", "C3", "C4", "C5", "C6"]

/-- The category half of `extractValidIds`, with the no-taxonomy fallback of
`processPhase2` folded in. -/
def validCategoryIdsOf (tax : Option Taxonomy) : List String :=
  match tax with
  | some t => setOfList (t.categories.map (·.id))
  | none => defaultCategoryIds

/-- The subcategory half of `extractValidIds` (empty without a taxonomy). -/
def validSubIdsOf (tax : Option Taxonomy) : List String :=
  match tax with
  | some t => t.categories.foldl (fun acc c => (c.subcategories.map (·.id)).foldl setInsert acc) []
  | none => []

/-- `isValidCategory`: false for `null` and for the empty string (JS `!cat`),
otherwise membership of the trimmed value in the valid-id set. -/
def isValidCategory (cat : Option String) (validIds : List String) : Bool :=
  match cat with
  | none => false
  | some c => if c = "" then false else validIds.contains (strTrim c)

/-- JS regex `/^[A-Z]$/`. -/
def isSingleUpper (s : String) : Bool :=
  match s.data with
  | [c] => c.isUpper
  | _ => false

/-- JS regex `/^[A-Z]\d$/`. -/
def isUpperDigit (s : String) : Bool :=
  match s.data with
  | [c, d] => c.isUpper && d.isDigit
  | _ => false

/-- JS regex `/^[A-Z]\d[a-z]$/`. -/
def isUpperDigitLower (s : String) : Bool :=
  match s.data with
  | [c, d, e] => c.isUpper && d.isDigit && e.isLower
  | _ => false

/-- JS regex `/^[a-z]$/`. -/
def isSingleLower (s : String) : Bool :=
  match s.data with
  | [c] => c.isLower
  | _ => false

/-- JS `vid.replace(/[a-z]+$/, "")`: strip the maximal trailing run of
lowercase letters. -/
def catPart (vid : String) : String :=
  String.mk ((vid.data.reverse.dropWhile Char.isLower).reverse)

/-- `detectSubcategoryFormat` (route.ts concatenation, lines 148-172).  The
source guards the wrong-prefix loop with `validSubIds.size > 0` and iterates
a `Set` of prefixes; `List.any` over the id list is equivalent. -/
def detectSubcategoryFormat (sub : Option String) (validSubIds : List String) : String :=
  match sub with
  | none => "Null / Empty"
  | some v =>
    if v = "" ∨ v = "null" ∨ v = "None" ∨ v = "N/A" then "Null / Empty"
    else
      let s := strTrim v
      if validSubIds.contains s then "Correct (matches taxonomy)"
      else if isSingleUpper s then "Letter only (A, B, C)"
      else if isUpperDigit s then "Letter+number (A1, B2)"
      else if isUpperDigitLower s then "Alt prefix (A2b, B1a)"
      else if isSingleLower s then "Lowercase letter (a, b, c)"
      else if validSubIds.any (fun vid => s == catPart vid) then "Category ID as subcategory"
      else if validSubIds.any (fun vid => strStartsWith s (catPart vid) && s.length > (catPart vid).length)
      then "Wrong category prefix"
      else "Other / Unrecognized"

/-- The trimmed-or-empty category of a classification (JS
`c.category?.trim() || ""`). -/
def trimmedCategory (c : Classification) : String :=
  strTrim (c.category.getD "")

/-- The `catCounts` loop of `processPhase2`: valid ids bucketed by id,
invalid values bucketed individually with `""` as `"(empty)"`. -/
def catCountsOf (clf : List Classification) (catIds : List String) : List (String × Nat) :=
  clf.foldl (fun counts c =>
    let cat := trimmedCategory c
    if isValidCategory (some cat) catIds
    then bumpCount counts cat
    else bumpCount counts (if cat = "" then "(empty)" else cat)) []

/-- The `malformed` counter of the same loop. -/
def malformedCountOf (clf : List Classification) (catIds : List String) : Nat :=
  (clf.filter (fun c => !(isValidCategory (some (trimmedCategory c)) catIds))).length

/-- One `categoryDistribution` entry. -/
structure CategoryCount where
  category : String
  count : Nat
  pct : ℚ
  isValid : Bool
deriving DecidableEq

/-- `categoryDistribution`: mapped entries sorted by count descending (JS
`.sort((a, b) => b.count - a.count)`). -/
def categoryDistributionOf (clf : List Classification) (catIds : List String) : List CategoryCount :=
  List.insertionSort (fun a b => b.count ≤ a.count)
    ((catCountsOf clf catIds).map (fun kv =>
      { category := kv.1, count := kv.2,
        pct := toFixed1 ((kv.2 : ℚ) / (clf.length : ℚ) * 100),
        isValid := isValidCategory (some kv.1) catIds }))

/-- Spec-side quantity for the bias score: the count of the most frequent
valid category (maximum bucket count among valid category ids). -/
def maxValidCategoryCount (clf : List Classification) (catIds : List String) : Nat :=
  (((catCountsOf clf catIds).filter (fun kv => isValidCategory (some kv.1) catIds)).map
    (·.2)).foldr max 0

/-- The bucket key a classification contributes to in `catCounts` (valid
values keep their id; invalid values bucket individually, `""` as
`"(empty)"`). -/
def keyOf (catIds : List String) (c : Classification) : String :=
  let cat := trimmedCategory c
  if isValidCategory (some cat) catIds then cat else (if cat = "" then "(empty)" else cat)

/-- The bias-score block of `processPhase2` (route.ts concatenation, lines
269-276): most frequent valid category versus a uniform expectation. -/
def c4BiasScoreOf (clf : List Classification) (catIds : List String) : ℚ :=
  let validOnly := (categoryDistributionOf clf catIds).filter (·.isValid)
  let expectedUniform : ℚ := (clf.length : ℚ) / (catIds.length : ℚ)
  match validOnly.head? with
  | some top => toFixed1 (((top.count : ℚ) / expectedUniform - 1) * 100)
  | none => 0

/-- One `subcategoryFormats` entry. -/
structure SubcategoryFormat where
  format : String
  count : Nat
  exampleValue : String
deriving DecidableEq

/-- JS `c.subcategory || "(null)"`. -/
def subExample (c : Classification) : String :=
  match c.subcategory with
  | some s => if s = "" then "(null)" else s
  | none => "(null)"

/-- The `formatCounts` record update: first example kept, count bumped. -/
def bumpFormat (m : List SubcategoryFormat) (fmt exv : String) : List SubcategoryFormat :=
  match m with
  | [] => [⟨fmt, 1, exv⟩]
  | f :: rest =>
    if f.format = fmt then ⟨f.format, f.count + 1, f.exampleValue⟩ :: rest
    else f :: bumpFormat rest fmt exv

/-- `subcategoryFormats`: per-format counts sorted descending. -/
def subcategoryFormatsOf (clf : List Classification) (subIds : List String) : List SubcategoryFormat :=
  List.insertionSort (fun a b => b.count ≤ a.count)
    (clf.foldl (fun acc c =>
      bumpFormat acc (detectSubcategoryFormat c.subcategory subIds) (subExample c)) [])

/-- The fields of `Phase2Analysis` covered by the claims (batch health, theme
and candidate tables are not mentioned by any claim and are omitted). -/
structure Phase2Analysis where
  totalClassified : Nat
  totalMessages : Nat
  successRate : ℚ
  categoryDistribution : List CategoryCount
  validCategories : List String
  malformedCount : Nat
  malformedPct : ℚ
  subcategoryFormats : List SubcategoryFormat
  c4BiasScore : ℚ
  biasCategory : String

/-- `processPhase2` (route.ts concatenation, lines 174-295), restricted to
the modelled fields. -/
def processPhase2 (data : Phase2Data) (tax : Option Taxonomy) : Phase2Analysis :=
  let catIds := validCategoryIdsOf tax
  let subIds := validSubIdsOf tax
  let clf := data.classifications
  let validOnly := (categoryDistributionOf clf catIds).filter (·.isValid)
  { totalClassified := data.metadata.total_classified,
    totalMessages := data.metadata.total_messages,
    successRate :=
      toFixed1 ((data.metadata.total_classified : ℚ) / (data.metadata.total_messages : ℚ) * 100),
    categoryDistribution := categoryDistributionOf clf catIds,
    validCategories := catIds,
    malformedCount := malformedCountOf clf catIds,
    malformedPct := toFixed1 ((malformedCountOf clf catIds : ℚ) / (clf.length : ℚ) * 100),
    subcategoryFormats := subcategoryFormatsOf clf subIds,
    c4BiasScore := c4BiasScoreOf clf catIds,
    biasCategory := ((validOnly.head?).map (·.category)).getD "" }

-- ── Cross-run comparison (processComparison.ts, part_005 second file) ──

/-- One pipeline run (the `summary` payload is not read by the functions the
claims concern and is omitted). -/
structure PipelineRun where
  name : String
  taxonomy : Option Taxonomy
  phase2 : Option Phase2Data

/-- One category-overlap row. -/
structure CategoryOverlap where
  category : String
  pipelines : List (String × Nat)
deriving DecidableEq

/-- One taxonomy-diff row. -/
structure TaxonomyDiff where
  categoryId : String
  categoryName : String
  presentIn : List String
  missingFrom : List String
deriving DecidableEq

/-- JS object assignment `m[k] = v` (overwrite or append). -/
def assocSet {α : Type} (m : List (String × α)) (k : String) (v : α) : List (String × α) :=
  match m with
  | [] => [(k, v)]
  | (k0, v0) :: rest => if k0 = k then (k0, v) :: rest else (k0, v0) :: assocSet rest k v

/-- `idToName` built from a taxonomy's categories (later ids overwrite). -/
def idToNameOf (tax : Option Taxonomy) : List (String × String) :=
  match tax with
  | some t => t.categories.foldl (fun m c => assocSet m c.id c.name) []
  | none => []

/-- JS `idToName[catId] || catId` (missing key and empty name both fall back
to the id). -/
def nameOrId (idToName : List (String × String)) (catId : String) : String :=
  match idToName.lookup catId with
  | some n => if n = "" then catId else n
  | none => catId

/-- The category-id set of `getValidCategoryIds` in processComparison.ts
(no fallback: empty when the taxonomy is absent). -/
def runCategoryIds (tax : Option Taxonomy) : List String :=
  match tax with
  | some t => setOfList (t.categories.map (·.id))
  | none => []

/-- Total of an overlap row (JS `Object.values(x.pipelines).reduce(+)`). -/
def overlapRowTotal (row : CategoryOverlap) : Nat :=
  row.pipelines.foldl (fun s kv => s + kv.2) 0

/-- `computeCategoryOverlap` (part_005 second file, lines 276-317): rows are
keyed by the (raw) category name obtained from each run's `idToName`. -/
def computeCategoryOverlap (runs : List PipelineRun) : List CategoryOverlap :=
  let acc := runs.foldl
    (fun (acc : List String × List (String × List (String × Nat))) run =>
      match run.phase2 with
      | none => acc
      | some ph =>
        let catIds := runCategoryIds run.taxonomy
        let idToName := idToNameOf run.taxonomy
        let inner := ph.classifications.foldl
          (fun (acc2 : List String × List (String × Nat)) clf =>
            let catId := strTrim (clf.category.getD "")
            if catIds.contains catId then
              let nm := nameOrId idToName catId
              (setInsert acc2.1 nm, bumpCount acc2.2 nm)
            else acc2)
          (acc.1, [])
        (inner.1, assocSet acc.2 run.name inner.2))
    ([], [])
  let rows := acc.1.map (fun categoryName =>
    { category := categoryName,
      pipelines := runs.map (fun r =>
        (r.name, match acc.2.lookup r.name with
                 | some counts => lookupCount counts categoryName
                 | none => 0)) })
  List.insertionSort (fun a b => overlapRowTotal b ≤ overlapRowTotal a) rows

/-- The `catMap` update of `computeTaxonomyDiff`: create the entry on first
sight of the key, then add the run name to its `presentIn` set. -/
def diffInsert (cm : List (String × String × List String)) (key nm runName : String) :
    List (String × String × List String) :=
  match cm with
  | [] => [(key, nm, [runName])]
  | (k, n, pres) :: rest =>
    if k = key then (k, n, setInsert pres runName) :: rest
    else (k, n, pres) :: diffInsert rest key nm runName

/-- `computeTaxonomyDiff` (part_005 second file, lines 319-344): entries are
keyed by `cat.name.toLowerCase().trim()`. -/
def computeTaxonomyDiff (runs : List PipelineRun) : List TaxonomyDiff :=
  let catMap := runs.foldl (fun cm run =>
    match run.taxonomy with
    | none => cm
    | some t =>
      t.categories.foldl (fun cm2 cat =>
        diffInsert cm2 (strTrim (strToLower cat.name)) cat.name run.name) cm) []
  let allPipelines := runs.map (·.name)
  List.insertionSort (fun a b => b.presentIn.length ≤ a.presentIn.length)
    (catMap.map (fun e =>
      { categoryId := "", categoryName := e.2.1, presentIn := e.2.2,
        missingFrom := allPipelines.filter (fun p => !(e.2.2.contains p)) }))

/-!  ## Lemmas and claim theorems  -/

/-- `Math.round` is bounded below by any integer below its argument. -/
theorem int_le_jsRound {z : ℤ} {q : ℚ} (h : (z : ℚ) ≤ q) : z ≤ jsRound q := by
  unfold jsRound
  exact Int.le_floor.2 (by linarith)

/-- `Math.round` is bounded above by any integer above its argument. -/
theorem jsRound_le_int {z : ℤ} {q : ℚ} (h : q ≤ (z : ℚ)) : jsRound q ≤ z := by
  unfold jsRound
  have hlt : ⌊q + 1/2⌋ < z + 1 := Int.floor_lt.2 (by push_cast; linarith)
  omega

/-- Core inequality behind the Chapman invariant: with `0 ≤ m ≤ min n1 n2`
the un-rounded point estimate is at least `max n1 n2`. -/
theorem chapman_ge_max (n1 n2 : ℕ) (m : ℤ) (h0 : 0 ≤ m) (hm : m ≤ (min n1 n2 : ℤ)) :
    ((max n1 n2 : ℕ) : ℚ) ≤ ((n1 + 1 : ℚ) * (n2 + 1)) / ((m : ℚ) + 1) - 1 := by
  have hp : (0 : ℚ) < (m : ℚ) + 1 := by
    have : (0 : ℚ) ≤ (m : ℚ) := by exact_mod_cast h0
    linarith
  rw [le_sub_iff_add_le, le_div_iff₀ hp]
  have hm1 : m ≤ (n1 : ℤ) := le_trans hm inf_le_left
  have hm2 : m ≤ (n2 : ℤ) := le_trans hm inf_le_right
  rcases le_total n1 n2 with h | h
  · have hmax : max n1 n2 = n2 := max_eq_right h
    rw [hmax]
    have hmq : (m : ℚ) ≤ (n1 : ℚ) := by exact_mod_cast hm1
    have h2 : (0 : ℚ) ≤ (n2 : ℚ) + 1 := by positivity
    nlinarith [mul_nonneg h2 (sub_nonneg.2 hmq)]
  · have hmax : max n1 n2 = n1 := max_eq_left h
    rw [hmax]
    have hmq : (m : ℚ) ≤ (n2 : ℚ) := by exact_mod_cast hm2
    have h2 : (0 : ℚ) ≤ (n1 : ℚ) + 1 := by positivity
    nlinarith [mul_nonneg h2 (sub_nonneg.2 hmq)]

/-- C1: the capture-recapture point estimate returned by
`computeCaptureRecapture` is the Chapman formula `((n1+1)(n2+1)/(m+1)) − 1`
rounded to the nearest integer, and for n1 = 20, n2 = 15, m = 5 the point
estimate is 55. -/
theorem chapman_point_estimate_is_formula :
    (∀ (tc : TitleCountEstimate) (se : ℚ),
      (computeCaptureRecapture tc se).chapmanEstimate =
        jsRound (specChapmanFormula tc.uniqueRecipients tc.uniqueNominators tc.overlap)) ∧
    (computeCaptureRecapture ⟨20, 15, 30, 5, 0⟩ 0).chapmanEstimate = 55 := by
  refine ⟨fun tc se => rfl, ?_⟩
  show jsRound (((20 : ℚ) + 1) * (15 + 1) / ((5 : ℚ) + 1) - 1) = 55
  have h : ((20 : ℚ) + 1) * (15 + 1) / ((5 : ℚ) + 1) - 1 = 55 := by norm_num
  rw [h]
  unfold jsRound
  norm_num [Int.floor_eq_iff]

/-- C2: for `0 ≤ m ≤ min n1 n2` the rounded Chapman point estimate is at
least `max n1 n2`, and the lower endpoint of the returned 95% interval is
clamped to at least `max n1 n2` (for every standard-error value). -/
theorem chapman_estimate_and_ci_low_ge_max :
    ∀ (tc : TitleCountEstimate) (se : ℚ),
      0 ≤ tc.overlap →
      tc.overlap ≤ (min tc.uniqueRecipients tc.uniqueNominators : ℤ) →
      ((max tc.uniqueRecipients tc.uniqueNominators : ℤ) ≤
          (computeCaptureRecapture tc se).chapmanEstimate ∧
        (max tc.uniqueRecipients tc.uniqueNominators : ℤ) ≤
          (computeCaptureRecapture tc se).ci95.1) := by
  intro tc se h0 hm
  have hchap := chapman_ge_max tc.uniqueRecipients tc.uniqueNominators tc.overlap h0 hm
  constructor
  · exact int_le_jsRound (by push_cast at hchap ⊢; linarith)
  · refine int_le_jsRound ?_
    have hle : ((max tc.uniqueRecipients tc.uniqueNominators : ℕ) : ℚ) ≤
        max (((tc.uniqueRecipients + 1 : ℚ) * (tc.uniqueNominators + 1)) /
            ((tc.overlap : ℚ) + 1) - 1 - 1.96 * se)
          ((max tc.uniqueRecipients tc.uniqueNominators : ℕ) : ℚ) := le_max_right _ _
    push_cast at hle ⊢
    exact hle

/-- Witness for C2 at the spec scenario n1 = 20, n2 = 15, m = 5. -/
theorem chapman_estimate_and_ci_low_ge_max_witness :
    ((max 20 15 : ℕ) : ℤ) ≤ (computeCaptureRecapture ⟨20, 15, 30, 5, 0⟩ 0).chapmanEstimate ∧
    ((max 20 15 : ℕ) : ℤ) ≤ (computeCaptureRecapture ⟨20, 15, 30, 5, 0⟩ 0).ci95.1 :=
  chapman_estimate_and_ci_low_ge_max ⟨20, 15, 30, 5, 0⟩ 0 (by decide) (by decide)

/-- `foldl min` stays at a lower bound of the list. -/
theorem foldl_min_const : ∀ (xs : List ℚ) (x : ℚ), (∀ y ∈ xs, x ≤ y) → xs.foldl min x = x := by
  intro xs
  induction xs with
  | nil => intro x _; rfl
  | cons y t ih =>
    intro x h
    rw [List.foldl_cons, min_eq_left (h y (by simp))]
    exact ih x (fun z hz => h z (by simp [hz]))

/-- The minimum of a sorted non-empty list is its head. -/
theorem listMin_sorted (x : ℚ) (xs : List ℚ) (hs : (x :: xs).Sorted (· ≤ ·)) :
    listMin (x :: xs) = x := by
  simp only [listMin]
  exact foldl_min_const xs x (List.sorted_cons.1 hs).1

/-- The maximum of a sorted non-empty list is its last element. -/
theorem listMax_sorted :
    ∀ l : List ℚ, l.Sorted (· ≤ ·) → l ≠ [] → listMax l = l.getD (l.length - 1) 0 := by
  intro l
  induction l with
  | nil => intro _ h; exact absurd rfl h
  | cons x xs ih =>
    intro hs _
    cases xs with
    | nil => simp [listMax]
    | cons y t =>
      have hxy : x ≤ y := (List.sorted_cons.1 hs).1 y (by simp)
      have hs' : (y :: t).Sorted (· ≤ ·) := (List.sorted_cons.1 hs).2
      have step : listMax (x :: y :: t) = listMax (y :: t) := by
        simp only [listMax, List.foldl_cons]
        rw [max_eq_right hxy]
      rw [step, ih hs' (by simp)]
      simp [List.getD]

/-- C3: on a sorted non-empty list, `percentile` at 50 is the true median, at
0 the minimum, and at 100 the maximum. -/
theorem percentile_median_min_max :
    ∀ l : List ℚ, l ≠ [] → l.Sorted (· ≤ ·) →
      percentile l 50 = trueMedian l ∧ percentile l 0 = listMin l ∧
        percentile l 100 = listMax l := by
  intro l hne hs
  refine ⟨?_, ?_, ?_⟩
  · rcases Nat.even_or_odd l.length with ⟨k, hk⟩ | ⟨k, hk⟩
    · have hk1 : 1 ≤ k := by
        rcases l with _ | ⟨x, xs⟩
        · exact absurd rfl hne
        · simp only [List.length_cons] at hk; omega
      have hidx : (50 / 100 : ℚ) * ((l.length : ℚ) - 1) = (k : ℚ) - 1/2 := by
        rw [hk]; push_cast; ring
      have hflo : ⌊(50 / 100 : ℚ) * ((l.length : ℚ) - 1)⌋ = (k : ℤ) - 1 := by
        rw [hidx]
        refine Int.floor_eq_iff.2 ⟨?_, ?_⟩ <;> push_cast <;> linarith
      have hcei : ⌈(50 / 100 : ℚ) * ((l.length : ℚ) - 1)⌉ = (k : ℤ) := by
        rw [hidx]
        refine Int.ceil_eq_iff.2 ⟨?_, ?_⟩ <;> push_cast <;> linarith
      have htn : ((k : ℤ) - 1).toNat = k - 1 := by omega
      have hmod : l.length % 2 = 0 := by omega
      have hdiv : l.length / 2 = k := by omega
      simp only [percentile, trueMedian, hflo, hcei, hmod, hdiv]
      rw [if_neg (by omega), if_neg (by omega), htn, Int.toNat_natCast, hidx]
      push_cast
      ring
    · have hidx : (50 / 100 : ℚ) * ((l.length : ℚ) - 1) = (k : ℚ) := by
        rw [hk]; push_cast; ring
      have hflo : ⌊(50 / 100 : ℚ) * ((l.length : ℚ) - 1)⌋ = (k : ℤ) := by
        rw [hidx, Int.floor_natCast]
      have hcei : ⌈(50 / 100 : ℚ) * ((l.length : ℚ) - 1)⌉ = (k : ℤ) := by
        rw [hidx, Int.ceil_natCast]
      have hmod : l.length % 2 = 1 := by omega
      have hdiv : (l.length - 1) / 2 = k := by omega
      simp only [percentile, trueMedian, hflo, hcei, hmod, hdiv]
      simp
  · have hflo : ⌊(0 / 100 : ℚ) * ((l.length : ℚ) - 1)⌋ = (0 : ℤ) := by norm_num
    have hcei : ⌈(0 / 100 : ℚ) * ((l.length : ℚ) - 1)⌉ = (0 : ℤ) := by norm_num
    rcases l with _ | ⟨x, xs⟩
    · exact absurd rfl hne
    · simp only [percentile, hflo, hcei]
      rw [listMin_sorted x xs hs]
      simp
  · rcases l with _ | ⟨x, xs⟩
    · exact absurd rfl hne
    · have hidx : (100 / 100 : ℚ) * (((x :: xs).length : ℚ) - 1) = (xs.length : ℚ) := by
        simp only [List.length_cons]; push_cast; ring
      have hflo : ⌊(100 / 100 : ℚ) * (((x :: xs).length : ℚ) - 1)⌋ = (xs.length : ℤ) := by
        rw [hidx, Int.floor_natCast]
      have hcei : ⌈(100 / 100 : ℚ) * (((x :: xs).length : ℚ) - 1)⌉ = (xs.length : ℤ) := by
        rw [hidx, Int.ceil_natCast]
      rw [listMax_sorted (x :: xs) hs (by simp)]
      simp only [percentile, hflo, hcei]
      simp

/-- Witness for C3 on the concrete sorted list `[1, 2, 3, 4]`. -/
theorem percentile_median_min_max_witness :
    percentile [1, 2, 3, 4] 50 = trueMedian [1, 2, 3, 4] ∧
      percentile [1, 2, 3, 4] 0 = listMin [1, 2, 3, 4] ∧
        percentile [1, 2, 3, 4] 100 = listMax [1, 2, 3, 4] :=
  percentile_median_min_max [1, 2, 3, 4] (by simp) (by norm_num [List.sorted_cons])

/-- C6 (amended): seniority rules are applied in list order with the first
match winning — a title matching the "Senior Manager" rule and none of the
earlier rules (Vice President, VP, Director, Principal) is classified
"Manager", not "Senior" — and a title matching no rule contributes to no
bucket of the seniority distribution. -/
theorem seniority_rule_order_and_no_default :
    (∀ t : String,
        testPattern true "Vice President" t = false →
        testPattern false "VP" t = false →
        testPattern true "Director" t = false →
        testPattern true "Principal" t = false →
        testPattern true "Senior Manager" t = true →
        extractSeniority t = some "Manager") ∧
    (∀ t : String, extractSeniority t = none →
        ∀ ts : List String, buildSeniorityDist (t :: ts) = buildSeniorityDist ts) := by
  constructor
  · intro t h1 h2 h3 h4 h5
    simp [extractSeniority, SENIORITY_PATTERNS, List.find?, h1, h2, h3, h4, h5]
  · intro t ht ts
    simp [buildSeniorityDist, List.foldl_cons, ht]

/-- Counterexample to C6 as stated: this title contains "Senior Manager"
(word-bounded, case-insensitive) yet is classified "Vice President" because
the Vice President rule fires first. -/
theorem seniority_senior_manager_counterexample :
    testPattern true "Senior Manager" "Senior Manager to the Vice President" = true ∧
      extractSeniority "Senior Manager to the Vice President" = some "Vice President" ∧
        extractSeniority "Senior Manager to the Vice President" ≠ some "Manager" := by
  decide

/-- Witness for C6. -/
theorem seniority_rule_order_witness :
    extractSeniority "Senior Manager" = some "Manager" ∧
      buildSeniorityDist ["Engineer II", "Director"] = buildSeniorityDist ["Director"] :=
  ⟨seniority_rule_order_and_no_default.1 "Senior Manager"
      (by decide) (by decide) (by decide) (by decide) (by decide),
    seniority_rule_order_and_no_default.2 "Engineer II" (by decide) ["Director"]⟩

/-- C10: the VP rule matches case-sensitively while every other rule is
case-insensitive — any title containing "vice president" in any letter case
maps to "Vice President", while a title containing only lowercase "vp" (no
uppercase "VP" word and no other seniority keyword) yields no signal. -/
theorem vp_rule_case_sensitivity :
    (∀ t : String, testPattern true "Vice President" t = true →
        extractSeniority t = some "Vice President") ∧
    (∀ t : String,
        testPattern false "vp" t = true →
        testPattern false "VP" t = false →
        testPattern true "Vice President" t = false →
        testPattern true "Director" t = false →
        testPattern true "Principal" t = false →
        testPattern true "Senior Manager" t = false →
        testPattern true "Senior" t = false →
        testPattern true "Lead" t = false →
        testPattern true "Manager" t = false →
        testPattern true "Associate" t = false →
        testPattern true "Junior" t = false →
        extractSeniority t = none) := by
  constructor
  · intro t h
    simp [extractSeniority, SENIORITY_PATTERNS, List.find?, h]
  · intro t hvp h1 h2 h3 h4 h5 h6 h7 h8 h9 h10
    simp [extractSeniority, SENIORITY_PATTERNS, List.find?,
      h1, h2, h3, h4, h5, h6, h7, h8, h9, h10]

/-- Witness for C10. -/
theorem vp_rule_case_sensitivity_witness :
    extractSeniority "vice PRESIDENT of Engineering" = some "Vice President" ∧
      extractSeniority "vp of sales" = none :=
  ⟨vp_rule_case_sensitivity.1 _ (by decide),
    vp_rule_case_sensitivity.2 _ (by decide) (by decide) (by decide) (by decide) (by decide)
      (by decide) (by decide) (by decide) (by decide) (by decide) (by decide)⟩

/-- C4 (amended): `detectSubcategoryFormat` evaluates its rule cascade in
this priority order: null/"None"/"N/A" variants first, then exact taxonomy
match, then single uppercase letter, letter+digit, letter+digit+lowercase,
single lowercase letter, category-id-as-subcategory, wrong-category-prefix,
else Other/Unrecognized. -/
theorem subcategory_format_cascade :
    (∀ ids : List String, detectSubcategoryFormat none ids = "Null / Empty") ∧
    (∀ (v : String) (ids : List String),
        (v = "" ∨ v = "null" ∨ v = "None" ∨ v = "N/A") →
        detectSubcategoryFormat (some v) ids = "Null / Empty") ∧
    (∀ (v : String) (ids : List String),
        ¬(v = "" ∨ v = "null" ∨ v = "None" ∨ v = "N/A") →
        strTrim v ∈ ids →
        detectSubcategoryFormat (some v) ids = "Correct (matches taxonomy)") ∧
    (∀ (v : String) (ids : List String),
        ¬(v = "" ∨ v = "null" ∨ v = "None" ∨ v = "N/A") →
        strTrim v ∉ ids →
        isSingleUpper (strTrim v) = true →
        detectSubcategoryFormat (some v) ids = "Letter only (A, B, C)") ∧
    (∀ (v : String) (ids : List String),
        ¬(v = "" ∨ v = "null" ∨ v = "None" ∨ v = "N/A") →
        strTrim v ∉ ids →
        isSingleUpper (strTrim v) = false →
        isUpperDigit (strTrim v) = true →
        detectSubcategoryFormat (some v) ids = "Letter+number (A1, B2)") ∧
    (∀ (v : String) (ids : List String),
        ¬(v = "" ∨ v = "null" ∨ v = "None" ∨ v = "N/A") →
        strTrim v ∉ ids →
        isSingleUpper (strTrim v) = false →
        isUpperDigit (strTrim v) = false →
        isUpperDigitLower (strTrim v) = true →
        detectSubcategoryFormat (some v) ids = "Alt prefix (A2b, B1a)") ∧
    (∀ (v : String) (ids : List String),
        ¬(v = "" ∨ v = "null" ∨ v = "None" ∨ v = "N/A") →
        strTrim v ∉ ids →
        isSingleUpper (strTrim v) = false →
        isUpperDigit (strTrim v) = false →
        isUpperDigitLower (strTrim v) = false →
        isSingleLower (strTrim v) = true →
        detectSubcategoryFormat (some v) ids = "Lowercase letter (a, b, c)") ∧
    (∀ (v : String) (ids : List String),
        ¬(v = "" ∨ v = "null" ∨ v = "None" ∨ v = "N/A") →
        strTrim v ∉ ids →
        isSingleUpper (strTrim v) = false →
        isUpperDigit (strTrim v) = false →
        isUpperDigitLower (strTrim v) = false →
        isSingleLower (strTrim v) = false →
        (∃ vid ∈ ids, strTrim v = catPart vid) →
        detectSubcategoryFormat (some v) ids = "Category ID as subcategory") ∧
    (∀ (v : String) (ids : List String),
        ¬(v = "" ∨ v = "null" ∨ v = "None" ∨ v = "N/A") →
        strTrim v ∉ ids →
        isSingleUpper (strTrim v) = false →
        isUpperDigit (strTrim v) = false →
        isUpperDigitLower (strTrim v) = false →
        isSingleLower (strTrim v) = false →
        (¬∃ vid ∈ ids, strTrim v = catPart vid) →
        (∃ vid ∈ ids, strStartsWith (strTrim v) (catPart vid) = true ∧
          (catPart vid).length < (strTrim v).length) →
        detectSubcategoryFormat (some v) ids = "Wrong category prefix") ∧
    (∀ (v : String) (ids : List String),
        ¬(v = "" ∨ v = "null" ∨ v = "None" ∨ v = "N/A") →
        strTrim v ∉ ids →
        isSingleUpper (strTrim v) = false →
        isUpperDigit (strTrim v) = false →
        isUpperDigitLower (strTrim v) = false →
        isSingleLower (strTrim v) = false →
        (¬∃ vid ∈ ids, strTrim v = catPart vid) →
        (¬∃ vid ∈ ids, strStartsWith (strTrim v) (catPart vid) = true ∧
          (catPart vid).length < (strTrim v).length) →
        detectSubcategoryFormat (some v) ids = "Other / Unrecognized") := by
  refine ⟨fun ids => rfl, ?_, ?_, ?_, ?_, ?_, ?_, ?_, ?_, ?_⟩
  · intro v ids h0
    rcases h0 with h | h | h | h <;> subst h <;> simp [detectSubcategoryFormat]
  · intro v ids h0 h1
    simp [detectSubcategoryFormat, h0, h1]
  · intro v ids h0 h1 h2
    simp [detectSubcategoryFormat, h0, h1, h2]
  · intro v ids h0 h1 h2 h3
    simp [detectSubcategoryFormat, h0, h1, h2, h3]
  · intro v ids h0 h1 h2 h3 h4
    simp [detectSubcategoryFormat, h0, h1, h2, h3, h4]
  · intro v ids h0 h1 h2 h3 h4 h5
    simp [detectSubcategoryFormat, h0, h1, h2, h3, h4, h5]
  · intro v ids h0 h1 h2 h3 h4 h5 h6
    simp [detectSubcategoryFormat, h0, h1, h2, h3, h4, h5, h6]
  · intro v ids h0 h1 h2 h3 h4 h5 h6 h7
    simp [detectSubcategoryFormat, h0, h1, h2, h3, h4, h5, h6, h7]
  · intro v ids h0 h1 h2 h3 h4 h5 h6 h7
    simp [detectSubcategoryFormat, h0, h1, h2, h3, h4, h5, h6, h7]

/-- Counterexample to C4 as stated: the value "None" is an exact member of
the taxonomy's subcategory-id set, but the code buckets it as "Null / Empty"
because the null-variant check runs before the exact-match check. -/
theorem subcategory_format_counterexample :
    ("None" : String) ∈ ["None"] ∧
      detectSubcategoryFormat (some "None") ["None"] = "Null / Empty" ∧
        detectSubcategoryFormat (some "None") ["None"] ≠ "Correct (matches taxonomy)" := by
  decide

/-- Witness for C4 across several cascade branches. -/
theorem subcategory_format_cascade_witness :
    detectSubcategoryFormat (some "N/A") ["C1a"] = "Null / Empty" ∧
      detectSubcategoryFormat (some " C1a ") ["C1a"] = "Correct (matches taxonomy)" ∧
        detectSubcategoryFormat (some "A") ["C1a"] = "Letter only (A, B, C)" ∧
          detectSubcategoryFormat (some "Growth1") ["Growth1a"] = "Category ID as subcategory" ∧
            detectSubcategoryFormat (some "C1xy") ["C1a"] = "Wrong category prefix" ∧
              detectSubcategoryFormat (some "hello") ["C1a"] = "Other / Unrecognized" :=
  ⟨subcategory_format_cascade.2.1 "N/A" ["C1a"] (by decide),
    subcategory_format_cascade.2.2.1 " C1a " ["C1a"] (by decide) (by decide),
    subcategory_format_cascade.2.2.2.1 "A" ["C1a"] (by decide) (by decide) (by decide),
    subcategory_format_cascade.2.2.2.2.2.2.2.1 "Growth1" ["Growth1a"] (by decide) (by decide)
      (by decide) (by decide) (by decide) (by decide) (by decide),
    subcategory_format_cascade.2.2.2.2.2.2.2.2.1 "C1xy" ["C1a"] (by decide) (by decide)
      (by decide) (by decide) (by decide) (by decide) (by decide) (by decide),
    subcategory_format_cascade.2.2.2.2.2.2.2.2.2 "hello" ["C1a"] (by decide) (by decide)
      (by decide) (by decide) (by decide) (by decide) (by decide) (by decide)⟩

/-- `setInsert` preserves duplicate-freedom. -/
theorem setInsert_nodup {s : List String} (h : s.Nodup) (k : String) : (setInsert s k).Nodup := by
  unfold setInsert
  split
  · exact h
  · next hk =>
    rw [List.nodup_append]
    exact ⟨h, List.nodup_singleton k, by
      intro a ha hb
      rw [List.mem_singleton] at hb
      exact hk (hb ▸ ha)⟩

/-- Auxiliary: folding `setInsert` preserves duplicate-freedom. -/
theorem foldl_setInsert_nodup :
    ∀ (l : List String) (acc : List String), acc.Nodup → (l.foldl setInsert acc).Nodup := by
  intro l
  induction l with
  | nil => intro acc h; exact h
  | cons x xs ih => intro acc h; exact ih (setInsert acc x) (setInsert_nodup h x)

/-- `setOfList` produces a duplicate-free list. -/
theorem setOfList_nodup (l : List String) : (setOfList l).Nodup :=
  foldl_setInsert_nodup l [] List.nodup_nil

/-- A duplicate-free list filtered by membership in `n` is no longer than
`n`. -/
theorem filter_contains_length_le (r n : List String) (hr : r.Nodup) :
    (r.filter (fun t => n.contains t)).length ≤ n.length := by
  have hnd : (r.filter (fun t => n.contains t)).Nodup := hr.filter _
  have hsub : (r.filter (fun t => n.contains t)) ⊆ n := by
    intro x hx
    have hc := (List.mem_filter.1 hx).2
    simpa using hc
  exact (hnd.subperm hsub).length_le

/-- C7 (amended): the estimated overlap `m` is the maximum of the scaled
shared-title estimate, a self-recognition fallback of
`round(0.3 · min(n1, n2))` used whenever `self_recognition_count > 0`, and a
floor of 1; whenever both top-15 title lists are non-empty and no longer
than the corresponding unique counts, `1 ≤ m ≤ min(n1, n2)`. -/
theorem overlap_bounds :
    ∀ raw : RawData,
      setOfList (raw.recipient_title.top_15_titles.map (·.1)) ≠ [] →
      setOfList (raw.nominator_title.top_15_titles.map (·.1)) ≠ [] →
      (setOfList (raw.recipient_title.top_15_titles.map (·.1))).length ≤
          raw.recipient_title.unique_count →
      (setOfList (raw.nominator_title.top_15_titles.map (·.1))).length ≤
          raw.nominator_title.unique_count →
      1 ≤ (computeTitleCount raw).overlap ∧
        (computeTitleCount raw).overlap ≤
          ((min raw.recipient_title.unique_count raw.nominator_title.unique_count : ℕ) : ℤ) := by
  intro raw h1ne h2ne hle1 hle2
  have hrl : 1 ≤ (setOfList (raw.recipient_title.top_15_titles.map (·.1))).length :=
    List.length_pos.2 h1ne
  have hnl : 1 ≤ (setOfList (raw.nominator_title.top_15_titles.map (·.1))).length :=
    List.length_pos.2 h2ne
  have hminN : 1 ≤ min raw.recipient_title.unique_count raw.nominator_title.unique_count :=
    le_min (le_trans hrl hle1) (le_trans hnl hle2)
  have hone : (1 : ℤ) ≤
      ((min raw.recipient_title.unique_count raw.nominator_title.unique_count : ℕ) : ℤ) := by
    exact_mod_cast hminN
  have htop : ((setOfList (raw.recipient_title.top_15_titles.map (·.1))).filter
      (fun t => (setOfList (raw.nominator_title.top_15_titles.map (·.1))).contains t)).length ≤
      min (setOfList (raw.recipient_title.top_15_titles.map (·.1))).length
        (setOfList (raw.nominator_title.top_15_titles.map (·.1))).length :=
    le_min (List.length_filter_le _ _)
      (filter_contains_length_le _ _ (setOfList_nodup _))
  have hminpos : (0 : ℚ) <
      ((min (setOfList (raw.recipient_title.top_15_titles.map (·.1))).length
          (setOfList (raw.nominator_title.top_15_titles.map (·.1))).length : ℕ) : ℚ) := by
    have : 1 ≤ min (setOfList (raw.recipient_title.top_15_titles.map (·.1))).length
        (setOfList (raw.nominator_title.top_15_titles.map (·.1))).length := le_min hrl hnl
    exact_mod_cast Nat.lt_of_lt_of_le Nat.zero_lt_one this
  have hrate : (((setOfList (raw.recipient_title.top_15_titles.map (·.1))).filter
      (fun t => (setOfList (raw.nominator_title.top_15_titles.map (·.1))).contains t)).length : ℚ) /
      ((min (setOfList (raw.recipient_title.top_15_titles.map (·.1))).length
          (setOfList (raw.nominator_title.top_15_titles.map (·.1))).length : ℕ) : ℚ) ≤ 1 :=
    (div_le_one hminpos).2 (by exact_mod_cast htop)
  have hmq : (0 : ℚ) ≤
      ((min raw.recipient_title.unique_count raw.nominator_title.unique_count : ℕ) : ℚ) := by
    positivity
  have hest : jsRound ((((setOfList (raw.recipient_title.top_15_titles.map (·.1))).filter
      (fun t => (setOfList (raw.nominator_title.top_15_titles.map (·.1))).contains t)).length : ℚ) /
      ((min (setOfList (raw.recipient_title.top_15_titles.map (·.1))).length
          (setOfList (raw.nominator_title.top_15_titles.map (·.1))).length : ℕ) : ℚ) *
      ((min raw.recipient_title.unique_count raw.nominator_title.unique_count : ℕ) : ℚ)) ≤
      ((min raw.recipient_title.unique_count raw.nominator_title.unique_count : ℕ) : ℤ) :=
    jsRound_le_int (by
      have := mul_le_of_le_one_left hmq hrate
      simpa using this)
  have hself : jsRound
      (((min raw.recipient_title.unique_count raw.nominator_title.unique_count : ℕ) : ℚ) * (3 / 10)) ≤
      ((min raw.recipient_title.unique_count raw.nominator_title.unique_count : ℕ) : ℤ) :=
    jsRound_le_int (by
      have hcast :
          ((((min raw.recipient_title.unique_count raw.nominator_title.unique_count : ℕ) : ℤ)) : ℚ) =
            ((min raw.recipient_title.unique_count raw.nominator_title.unique_count : ℕ) : ℚ) := by
        norm_cast
      rw [hcast]
      linarith [hmq])
  simp only [computeTitleCount]
  constructor
  · exact le_max_right _ 1
  · refine max_le (max_le hest ?_) hone
    split
    · exact hself
    · exact hest

/-- Counterexample to C7 as stated: two inputs with identical recipient and
nominator title data (so identical shared-title information) produce
different overlaps because a positive `self_recognition_count` switches the
estimate to `round(0.3 · min(n1, n2))`. -/
theorem overlap_not_solely_from_titles :
    (computeTitleCount ⟨⟨100, [("Engineer", 5)]⟩, ⟨100, [("Manager", 4)]⟩,
        ⟨0, 0, 0, 0, 0, 0, []⟩⟩).overlap = 1 ∧
      (computeTitleCount ⟨⟨100, [("Engineer", 5)]⟩, ⟨100, [("Manager", 4)]⟩,
          ⟨0, 0, 0, 0, 7, 0, []⟩⟩).overlap = 30 := by
  constructor <;>
    · simp [computeTitleCount, setOfList, setInsert, jsRound]
      norm_num [Int.floor_eq_iff]

/-- Witness for C7. -/
theorem overlap_bounds_witness :
    1 ≤ (computeTitleCount ⟨⟨100, [("Engineer", 5)]⟩, ⟨100, [("Engineer", 3)]⟩,
          ⟨0, 0, 0, 0, 0, 0, []⟩⟩).overlap ∧
      (computeTitleCount ⟨⟨100, [("Engineer", 5)]⟩, ⟨100, [("Engineer", 3)]⟩,
          ⟨0, 0, 0, 0, 0, 0, []⟩⟩).overlap ≤ ((min 100 100 : ℕ) : ℤ) :=
  overlap_bounds _ (by decide) (by decide) (by decide) (by decide)

/-- C9: the reciprocal(bidirectional)-pair count computed by
`processCSVToRawData`'s interaction section never exceeds
`⌊unique_pairs / 2⌋`. -/
theorem bidirectional_le_half_unique_pairs (rows : List CsvRow) :
    (processInteractions rows).bidirectional_pairs ≤
      (processInteractions rows).unique_pairs / 2 := by
  simp only [processInteractions]
  exact Nat.div_le_div_right (List.length_filter_le _ _)

/-- `toFixed1` is the identity on integers. -/
theorem toFixed1_of_int (z : ℤ) : toFixed1 ((z : ℤ) : ℚ) = (z : ℚ) := by
  unfold toFixed1 jsRound
  have h : ⌊(10 : ℚ) * (z : ℚ) + 1/2⌋ = 10 * z := by
    refine Int.floor_eq_iff.2 ⟨?_, ?_⟩ <;> push_cast <;> linarith
  rw [h]
  push_cast
  ring

/-- `bumpCount` leaves the bumped key present. -/
theorem bumpCount_mem_self : ∀ (m : List (String × Nat)) (k : String),
    ∃ v, (k, v) ∈ bumpCount m k := by
  intro m k
  induction m with
  | nil => exact ⟨1, by simp [bumpCount]⟩
  | cons p rest ih =>
    obtain ⟨k0, v0⟩ := p
    by_cases h : k0 = k
    · subst h
      exact ⟨v0 + 1, by simp [bumpCount]⟩
    · obtain ⟨v, hv⟩ := ih
      exact ⟨v, by simp [bumpCount, h, hv]⟩

/-- `bumpCount` preserves existing keys. -/
theorem bumpCount_mem_preserve :
    ∀ (m : List (String × Nat)) (k k0 : String) (v0 : Nat),
      (k0, v0) ∈ m → ∃ v, (k0, v) ∈ bumpCount m k := by
  intro m k
  induction m with
  | nil =>
    intro k0 v0 h
    exact absurd h (List.not_mem_nil _)
  | cons p rest ih =>
    obtain ⟨k1, v1⟩ := p
    intro k0 v0 h
    rcases List.mem_cons.1 h with heq | hmem
    · rw [Prod.mk.injEq] at heq
      obtain ⟨rfl, rfl⟩ := heq
      by_cases hk : k0 = k
      · subst hk
        exact ⟨v0 + 1, by simp [bumpCount]⟩
      · exact ⟨v0, by simp [bumpCount, hk]⟩
    · by_cases hk : k1 = k
      · subst hk
        exact ⟨v0, by simp [bumpCount, hmem]⟩
      · obtain ⟨v, hv⟩ := ih k0 v0 hmem
        exact ⟨v, by simp [bumpCount, hk, hv]⟩

/-- Folding bump-steps over a list makes every contributed key present. -/
theorem foldl_bump_mem {α : Type} (key : α → String) :
    ∀ (l : List α) (acc : List (String × Nat)) (k : String),
      ((∃ v, (k, v) ∈ acc) ∨ ∃ c ∈ l, key c = k) →
      ∃ v, (k, v) ∈ l.foldl (fun counts c => bumpCount counts (key c)) acc := by
  intro l
  induction l with
  | nil =>
    intro acc k h
    rcases h with h | ⟨c, hc, _⟩
    · simpa using h
    · exact absurd hc (List.not_mem_nil c)
  | cons c0 rest ih =>
    intro acc k h
    rw [List.foldl_cons]
    apply ih
    rcases h with ⟨v, hv⟩ | ⟨c, hc, hk⟩
    · exact Or.inl (bumpCount_mem_preserve acc (key c0) k v hv)
    · rcases List.mem_cons.1 hc with rfl | hc2
      · exact Or.inl (hk ▸ bumpCount_mem_self acc (key c))
      · exact Or.inr ⟨c, hc2, hk⟩

/-- `catCounts` as a single bump-fold over the bucket key. -/
theorem catCountsOf_eq_fold (clf : List Classification) (catIds : List String) :
    catCountsOf clf catIds =
      clf.foldl (fun counts c => bumpCount counts (keyOf catIds c)) [] := by
  unfold catCountsOf keyOf
  congr 1
  funext counts c
  by_cases h : isValidCategory (some (trimmedCategory c)) catIds = true
  · simp [h]
  · simp [h]

/-- `foldr max` is bounded by any common bound. -/
theorem foldr_max_le : ∀ (l : List Nat) (b : Nat), (∀ x ∈ l, x ≤ b) → l.foldr max 0 ≤ b := by
  intro l
  induction l with
  | nil => intro b _; exact Nat.zero_le b
  | cons a t ih =>
    intro b h
    rw [List.foldr_cons]
    exact max_le (h a (by simp)) (ih b (fun x hx => h x (by simp [hx])))

/-- `foldr max` attains a member that dominates the list. -/
theorem foldr_max_eq :
    ∀ (l : List Nat) (t : Nat), t ∈ l → (∀ x ∈ l, x ≤ t) → l.foldr max 0 = t := by
  intro l
  induction l with
  | nil => intro t ht _; exact absurd ht (List.not_mem_nil t)
  | cons a rest ih =>
    intro t ht hmax
    rw [List.foldr_cons]
    rcases List.mem_cons.1 ht with rfl | hmem
    · exact max_eq_left (foldr_max_le rest t (fun x hx => hmax x (by simp [hx])))
    · rw [ih t hmem (fun x hx => hmax x (by simp [hx]))]
      exact max_eq_right (hmax a (by simp))

/-- `foldr max` is invariant under permutation. -/
theorem foldr_max_perm : ∀ {l1 l2 : List Nat}, l1.Perm l2 → l1.foldr max 0 = l2.foldr max 0 := by
  intro l1 l2 h
  induction h with
  | nil => rfl
  | cons x _ ih => simp only [List.foldr_cons, ih]
  | swap x y l =>
    simp only [List.foldr_cons]
    exact max_left_comm y x _
  | trans _ _ ih1 ih2 => exact ih1.trans ih2

/-- Head of the valid-filtered, count-sorted distribution carries the
maximal bucket count. -/
theorem head_filter_sorted_max (l0 : List (String × Nat)) (F : String × Nat → CategoryCount)
    (hcount : ∀ kv, (F kv).count = kv.2)
    (t : CategoryCount) (ts : List CategoryCount)
    (hl : (List.insertionSort (fun a b : CategoryCount => b.count ≤ a.count) (l0.map F)).filter
        (fun e => e.isValid) = t :: ts) :
    ((l0.filter (fun kv => (F kv).isValid)).map (fun kv => kv.2)).foldr max 0 = t.count := by
  haveI hTot : IsTotal CategoryCount (fun a b : CategoryCount => b.count ≤ a.count) :=
    ⟨fun a b => le_total b.count a.count⟩
  haveI hTrans : IsTrans CategoryCount (fun a b : CategoryCount => b.count ≤ a.count) :=
    ⟨fun _ _ _ h1 h2 => le_trans h2 h1⟩
  have hsf : List.Sorted (fun a b : CategoryCount => b.count ≤ a.count)
      ((List.insertionSort (fun a b : CategoryCount => b.count ≤ a.count) (l0.map F)).filter
        (fun e => e.isValid)) :=
    (List.sorted_insertionSort _ _).filter _
  rw [hl] at hsf
  have hts : ∀ x ∈ t :: ts, x.count ≤ t.count := by
    intro x hx
    rcases List.mem_cons.1 hx with rfl | hx2
    · exact le_refl _
    · exact (List.sorted_cons.1 hsf).1 x hx2
  have hperm : ((List.insertionSort (fun a b : CategoryCount => b.count ≤ a.count)
      (l0.map F)).filter (fun e => e.isValid)).Perm
      ((l0.map F).filter (fun e => e.isValid)) :=
    (List.perm_insertionSort _ _).filter _
  rw [hl] at hperm
  have hfm : (l0.map F).filter (fun e => e.isValid) =
      (l0.filter (fun kv => (F kv).isValid)).map F := by
    rw [List.filter_map]
    rfl
  have hperm2 : ((t :: ts).map (fun e => e.count)).Perm
      ((l0.filter (fun kv => (F kv).isValid)).map (fun kv => kv.2)) := by
    have h1 := hperm.map (fun e : CategoryCount => e.count)
    rw [hfm, List.map_map] at h1
    have h2 : (l0.filter (fun kv => (F kv).isValid)).map
        ((fun e : CategoryCount => e.count) ∘ F) =
        (l0.filter (fun kv => (F kv).isValid)).map (fun kv => kv.2) := by
      apply List.map_congr_left
      intro a _
      exact hcount a
    rw [h2] at h1
    exact h1
  rw [foldr_max_perm hperm2.symm]
  apply foldr_max_eq
  · exact List.mem_map_of_mem _ (by simp)
  · intro x hx
    obtain ⟨e, he, rfl⟩ := List.mem_map.1 hx
    exact hts e he

/-- The bias score computed by the source equals the
most-frequent-valid-category formula. -/
theorem c4BiasScoreOf_eq_max (clf : List Classification) (catIds : List String)
    (hex : ∃ c ∈ clf, isValidCategory (some (trimmedCategory c)) catIds = true) :
    c4BiasScoreOf clf catIds =
      toFixed1 (((maxValidCategoryCount clf catIds : ℚ) /
        ((clf.length : ℚ) / (catIds.length : ℚ)) - 1) * 100) := by
  obtain ⟨c, hc, hv⟩ := hex
  have hkc : keyOf catIds c = trimmedCategory c := by
    simp [keyOf, hv]
  have hmem0 : ∃ v, (trimmedCategory c, v) ∈ catCountsOf clf catIds := by
    rw [catCountsOf_eq_fold]
    exact foldl_bump_mem (keyOf catIds) clf [] (trimmedCategory c) (Or.inr ⟨c, hc, hkc⟩)
  obtain ⟨v, hvmem⟩ := hmem0
  cases hl : (categoryDistributionOf clf catIds).filter (fun e => e.isValid) with
  | nil =>
    exfalso
    have he1 := List.mem_map_of_mem (fun kv : String × Nat =>
      ({ category := kv.1, count := kv.2,
         pct := toFixed1 ((kv.2 : ℚ) / (clf.length : ℚ) * 100),
         isValid := isValidCategory (some kv.1) catIds } : CategoryCount)) hvmem
    have he2 : (⟨trimmedCategory c, v, toFixed1 ((v : ℚ) / (clf.length : ℚ) * 100),
        isValidCategory (some (trimmedCategory c)) catIds⟩ : CategoryCount) ∈
        categoryDistributionOf clf catIds := by
      unfold categoryDistributionOf
      exact (List.perm_insertionSort _ _).mem_iff.2 he1
    have he3 : (⟨trimmedCategory c, v, toFixed1 ((v : ℚ) / (clf.length : ℚ) * 100),
        isValidCategory (some (trimmedCategory c)) catIds⟩ : CategoryCount) ∈
        (categoryDistributionOf clf catIds).filter (fun e => e.isValid) :=
      List.mem_filter.2 ⟨he2, hv⟩
    rw [hl] at he3
    exact absurd he3 (List.not_mem_nil _)
  | cons t ts =>
    have hbias : c4BiasScoreOf clf catIds =
        toFixed1 (((t.count : ℚ) / ((clf.length : ℚ) / (catIds.length : ℚ)) - 1) * 100) := by
      simp only [c4BiasScoreOf, hl, List.head?_cons]
    have hmax : maxValidCategoryCount clf catIds = t.count :=
      head_filter_sorted_max (catCountsOf clf catIds) _ (fun kv => rfl) t ts hl
    rw [hbias, hmax]

/-- C5: for a classification list with at least one valid category, the bias
score is (most-frequent-valid-category count / expected − 1) × 100 with
expected = total / number-of-valid-categories, rounded to one decimal; the
spec scenario (taxonomy {A, B}, 10 classifications all "A") scores 100. -/
theorem bias_score_most_frequent_valid :
    (∀ (data : Phase2Data) (tax : Option Taxonomy),
        (∃ c ∈ data.classifications,
          isValidCategory (some (trimmedCategory c)) (validCategoryIdsOf tax) = true) →
        (processPhase2 data tax).c4BiasScore =
          toFixed1 (((maxValidCategoryCount data.classifications (validCategoryIdsOf tax) : ℚ) /
              ((data.classifications.length : ℚ) / ((validCategoryIdsOf tax).length : ℚ)) - 1) *
            100)) ∧
    (processPhase2 ⟨⟨10, 10, 10⟩,
        [⟨0, some "A", none, [], none⟩, ⟨0, some "A", none, [], none⟩,
         ⟨0, some "A", none, [], none⟩, ⟨0, some "A", none, [], none⟩,
         ⟨0, some "A", none, [], none⟩, ⟨0, some "A", none, [], none⟩,
         ⟨0, some "A", none, [], none⟩, ⟨0, some "A", none, [], none⟩,
         ⟨0, some "A", none, [], none⟩, ⟨0, some "A", none, [], none⟩], []⟩
      (some ⟨[⟨"A", "A", []⟩, ⟨"B", "B", []⟩]⟩)).c4BiasScore = 100 := by
  have main : ∀ (data : Phase2Data) (tax : Option Taxonomy),
      (∃ c ∈ data.classifications,
        isValidCategory (some (trimmedCategory c)) (validCategoryIdsOf tax) = true) →
      (processPhase2 data tax).c4BiasScore =
        toFixed1 (((maxValidCategoryCount data.classifications (validCategoryIdsOf tax) : ℚ) /
            ((data.classifications.length : ℚ) / ((validCategoryIdsOf tax).length : ℚ)) - 1) *
          100) := by
    intro data tax hex
    exact c4BiasScoreOf_eq_max data.classifications (validCategoryIdsOf tax) hex
  refine ⟨main, ?_⟩
  show c4BiasScoreOf
      [⟨0, some "A", none, [], none⟩, ⟨0, some "A", none, [], none⟩,
       ⟨0, some "A", none, [], none⟩, ⟨0, some "A", none, [], none⟩,
       ⟨0, some "A", none, [], none⟩, ⟨0, some "A", none, [], none⟩,
       ⟨0, some "A", none, [], none⟩, ⟨0, some "A", none, [], none⟩,
       ⟨0, some "A", none, [], none⟩, ⟨0, some "A", none, [], none⟩]
      (validCategoryIdsOf (some ⟨[⟨"A", "A", []⟩, ⟨"B", "B", []⟩]⟩)) = 100
  rw [c4BiasScoreOf_eq_max _ _ ⟨⟨0, some "A", none, [], none⟩, by decide, by decide⟩]
  have hm : maxValidCategoryCount
      [⟨0, some "A", none, [], none⟩, ⟨0, some "A", none, [], none⟩,
       ⟨0, some "A", none, [], none⟩, ⟨0, some "A", none, [], none⟩,
       ⟨0, some "A", none, [], none⟩, ⟨0, some "A", none, [], none⟩,
       ⟨0, some "A", none, [], none⟩, ⟨0, some "A", none, [], none⟩,
       ⟨0, some "A", none, [], none⟩, ⟨0, some "A", none, [], none⟩]
      (validCategoryIdsOf (some ⟨[⟨"A", "A", []⟩, ⟨"B", "B", []⟩]⟩)) = 10 := by decide
  have hc : (validCategoryIdsOf (some ⟨[⟨"A", "A", []⟩, ⟨"B", "B", []⟩]⟩)).length = 2 := by decide
  rw [hm, hc]
  have harg : (((10 : ℕ) : ℚ) /
      ((([⟨0, some "A", none, [], none⟩, ⟨0, some "A", none, [], none⟩,
          ⟨0, some "A", none, [], none⟩, ⟨0, some "A", none, [], none⟩,
          ⟨0, some "A", none, [], none⟩, ⟨0, some "A", none, [], none⟩,
          ⟨0, some "A", none, [], none⟩, ⟨0, some "A", none, [], none⟩,
          ⟨0, some "A", none, [], none⟩, ⟨0, some "A", none, [], none⟩] :
          List Classification).length : ℚ) / ((2 : ℕ) : ℚ)) - 1) * 100 = ((100 : ℤ) : ℚ) := by
    norm_num
  rw [harg, toFixed1_of_int]
  norm_num

/-- Witness for C5 (two classifications, both "A", taxonomy {A, B}). -/
theorem bias_score_most_frequent_valid_witness :
    (processPhase2 ⟨⟨2, 2, 2⟩,
        [⟨0, some "A", none, [], none⟩, ⟨0, some "A", none, [], none⟩], []⟩
      (some ⟨[⟨"A", "A", []⟩, ⟨"B", "B", []⟩]⟩)).c4BiasScore =
      toFixed1 (((maxValidCategoryCount
          [⟨0, some "A", none, [], none⟩, ⟨0, some "A", none, [], none⟩]
          (validCategoryIdsOf (some ⟨[⟨"A", "A", []⟩, ⟨"B", "B", []⟩]⟩)) : ℚ) /
        ((([⟨0, some "A", none, [], none⟩, ⟨0, some "A", none, [], none⟩] :
            List Classification).length : ℚ) /
          ((validCategoryIdsOf (some ⟨[⟨"A", "A", []⟩, ⟨"B", "B", []⟩]⟩)).length : ℚ)) - 1) *
        100) :=
  bias_score_most_frequent_valid.1 _ _ ⟨⟨0, some "A", none, [], none⟩, by decide, by decide⟩

/-- C8 (amended): across runs, only the taxonomy-structure diff aligns
categories by name compared case-insensitively after trimming; the
category-overlap table keys rows by the exact raw category name.  For two
runs whose single category names differ only in case/whitespace, the diff
produces one row covering both runs while the overlap table produces two
separate rows. -/
theorem category_alignment_by_name :
    ∀ nm1 nm2 : String, nm1 ≠ "" → nm2 ≠ "" → nm1 ≠ nm2 →
      strTrim (strToLower nm1) = strTrim (strToLower nm2) →
      computeTaxonomyDiff
          [⟨"run1", some ⟨[⟨"C1", nm1, []⟩]⟩,
            some ⟨⟨1, 1, 1⟩, [⟨0, some "C1", none, [], none⟩], []⟩⟩,
           ⟨"run2", some ⟨[⟨"X9", nm2, []⟩]⟩,
            some ⟨⟨1, 1, 1⟩, [⟨0, some "X9", none, [], none⟩], []⟩⟩] =
        [⟨"", nm1, ["run1", "run2"], []⟩] ∧
      (computeCategoryOverlap
          [⟨"run1", some ⟨[⟨"C1", nm1, []⟩]⟩,
            some ⟨⟨1, 1, 1⟩, [⟨0, some "C1", none, [], none⟩], []⟩⟩,
           ⟨"run2", some ⟨[⟨"X9", nm2, []⟩]⟩,
            some ⟨⟨1, 1, 1⟩, [⟨0, some "X9", none, [], none⟩], []⟩⟩]).map
        (fun r => r.category) = [nm1, nm2] := by
  intro nm1 nm2 h1 h2 h3 h4
  have hC1 : strTrim "C1" = "C1" := by decide
  have hX9 : strTrim "X9" = "X9" := by decide
  have hb12 : (nm1 == nm2) = false := beq_eq_false_iff_ne.2 h3
  have hb21 : (nm2 == nm1) = false := beq_eq_false_iff_ne.2 (Ne.symm h3)
  constructor
  · simp [computeTaxonomyDiff, diffInsert, setInsert, List.insertionSort, List.orderedInsert,
      h4, h3, Ne.symm h3]
  · simp [computeCategoryOverlap, runCategoryIds, idToNameOf, setOfList, setInsert, assocSet,
      nameOrId, bumpCount, lookupCount, overlapRowTotal, List.insertionSort, List.orderedInsert,
      List.lookup, hC1, hX9, h1, h2, h3, Ne.symm h3, hb12, hb21]

/-- Counterexample to C8 as stated: the category names "Growth" and "growth"
are equal case-insensitively, yet `computeCategoryOverlap` puts them in two
different rows (each counted only in its own run) instead of matching them
to the same row. -/
theorem category_overlap_case_sensitive_counterexample :
    strTrim (strToLower "Growth") = strTrim (strToLower "growth") ∧
      computeCategoryOverlap
          [⟨"run1", some ⟨[⟨"C1", "Growth", []⟩]⟩,
            some ⟨⟨1, 1, 1⟩, [⟨0, some "C1", none, [], none⟩], []⟩⟩,
           ⟨"run2", some ⟨[⟨"X9", "growth", []⟩]⟩,
            some ⟨⟨1, 1, 1⟩, [⟨0, some "X9", none, [], none⟩], []⟩⟩] =
        [⟨"Growth", [("run1", 1), ("run2", 0)]⟩, ⟨"growth", [("run1", 0), ("run2", 1)]⟩] := by
  decide

/-- Witness for C8. -/
theorem category_alignment_by_name_witness :
    computeTaxonomyDiff
        [⟨"run1", some ⟨[⟨"C1", "Growth", []⟩]⟩,
          some ⟨⟨1, 1, 1⟩, [⟨0, some "C1", none, [], none⟩], []⟩⟩,
         ⟨"run2", some ⟨[⟨"X9", " growth ", []⟩]⟩,
          some ⟨⟨1, 1, 1⟩, [⟨0, some "X9", none, [], none⟩], []⟩⟩] =
      [⟨"", "Growth", ["run1", "run2"], []⟩] ∧
    (computeCategoryOverlap
        [⟨"run1", some ⟨[⟨"C1", "Growth", []⟩]⟩,
          some ⟨⟨1, 1, 1⟩, [⟨0, some "C1", none, [], none⟩], []⟩⟩,
         ⟨"run2", some ⟨[⟨"X9", " growth ", []⟩]⟩,
          some ⟨⟨1, 1, 1⟩, [⟨0, some "X9", none, [], none⟩], []⟩⟩]).map
      (fun r => r.category) = ["Growth", " growth "] :=
  category_alignment_by_name "Growth" " growth " (by decide) (by decide) (by decide) (by decide)

end HrAnalytics
